import Mathlib

/-!
Verification of the Trace2Pass diagnosis engine against its specification.

The Lean definitions below are shallow embeddings of the Python source:

* `UBDetector.*`      embeds `src/diagnoser/src/ub_detector.py`
* `Orchestrator.*`    embeds `full_pipeline_cmd` of `src/diagnoser/diagnose.py`
* `Collector.*`       embeds `src/collector/src/models.py`
* `PassBisector.*`    embeds `src/diagnoser/src/pass_bisector.py`
* `VersionBisector.*` embeds `src/diagnoser/src/version_bisector.py`

External effects (process spawning, file system) are abstracted as input
parameters: a compiler invocation is represented by the observable data the
Python code branches on (exit codes, stderr strings, availability flags), and
a test oracle is a function from the probed point to its outcome.  Python
floats are modelled by `ℚ` (the confidence weights are exact decimals, and no
verdict threshold comparison changes between binary floating point and exact
rational arithmetic on the reachable values).
-/

namespace UBDetector

/-- Substring test, modelling Python's `needle in hay`. -/
def strContains (hay needle : String) : Bool :=
  (List.range (hay.length + 1)).any (fun i => needle.toList.isPrefixOf (hay.toList.drop i))

/-- Result record of `UBDetector._check_ubsan`: the boolean the method returns
(`True` means "UBSan clean") together with the `compile_failed` flag it stores
in `details['ubsan']`. -/
structure UbsanSignal where
  clean : Bool
  compileFailed : Bool
deriving Repr, DecidableEq

/-- Embedding of `UBDetector._check_ubsan` (ub_detector.py lines 162-220).
Inputs are the observables the method branches on: whether `clang` was found,
the exit code of the `-fsanitize=undefined` compilation, and the stderr of the
sanitized run (only consulted when compilation succeeds). -/
def checkUbsan (clangAvailable : Bool) (compileReturncode : Int) (runStderr : String) :
    UbsanSignal :=
  if !clangAvailable then
    -- `return True  # Assume clean if can't test`
    { clean := true, compileFailed := false }
  else if compileReturncode != 0 then
    -- `details['ubsan'] = {'compile_failed': True, ...}; return True`
    { clean := true, compileFailed := true }
  else
    -- `ubsan_triggered = "runtime error:" in run_result.stderr`
    { clean := !(strContains runStderr "runtime error:"), compileFailed := false }

/-- Embedding of `UBDetector._compute_confidence` (ub_detector.py lines
427-480).  `crashSignal` models the `runtime_crash_signal` flag that
`_check_multi_compiler` stores in `details['multi_compiler']` when exactly one
compiler's binary crashes at runtime. -/
def computeConfidence (ubsanClean optimizationSensitive multiCompilerDiffers crashSignal : Bool) :
    ℚ :=
  let confidence : ℚ := 1/2
  let confidence := if ubsanClean then confidence + 3/10 else confidence - 4/10
  let confidence := if optimizationSensitive then confidence + 2/10 else confidence
  let confidence :=
    if multiCompilerDiffers then
      if crashSignal then confidence + 1/4 else confidence + 3/20
    else confidence
  max 0 (min 1 confidence)

/-- Embedding of the verdict thresholds in `UBDetector.detect` (ub_detector.py
lines 146-151). -/
def verdictFromConfidence (confidence : ℚ) : String :=
  if confidence ≥ 6/10 then "compiler_bug"
  else if confidence ≤ 3/10 then "user_ub"
  else "inconclusive"

/-- The cross-compiler signal as the spec describes it: absent, an output
difference, or a crash asymmetry. -/
inductive CrossSignal
  | absent
  | outputDiff
  | crashAsym
deriving Repr, DecidableEq

/-- Modelled from the spec (§4.4 confidence scoring): start at 0.5,
sanitizer +0.3 clean / −0.4 triggered, opt-sensitive +0.2, cross-compiler
output difference +0.15, crash asymmetry +0.25, clamped to [0,1].  This is the
spec-side formula, to be compared with `computeConfidence` from the source. -/
def specConfidence (ubsanClean optimizationSensitive : Bool) (cross : CrossSignal) : ℚ :=
  let total : ℚ := 1/2
    + (if ubsanClean then 3/10 else -(4/10))
    + (if optimizationSensitive then 2/10 else 0)
    + (match cross with
       | .absent => 0
       | .outputDiff => 3/20
       | .crashAsym => 1/4)
  max 0 (min 1 total)

/-- Encoding of a spec-side cross-compiler signal into the two booleans the
source uses (`multi_compiler_differs` and the crash flag in `details`). -/
def CrossSignal.differs : CrossSignal → Bool
  | .absent => false
  | _ => true

/-- Whether the cross-compiler signal is a crash asymmetry. -/
def CrossSignal.isCrash : CrossSignal → Bool
  | .crashAsym => true
  | _ => false

end UBDetector

namespace Orchestrator

/-- The fields of the dictionary `ub_detect_cmd` returns that
`full_pipeline_cmd` consumes. -/
structure UBCmdResult where
  verdict : String
  confidence : ℚ
deriving Repr, DecidableEq

/-- The fields of the dictionary `version_bisect_cmd` returns that
`full_pipeline_cmd` consumes.  `firstBad = none` models a `None` entry. -/
structure VersionCmdResult where
  verdict : String
  firstBad : Option String
  lastGood : Option String
deriving Repr, DecidableEq

/-- The fields of the dictionary `pass_bisect_cmd` returns. -/
structure PassCmdResult where
  verdict : String
  culpritPass : Option String
deriving Repr, DecidableEq

/-- Python truthiness of an optional string: `None` and `""` are falsy. -/
def pyTruthy : Option String → Bool
  | none => false
  | some s => s ≠ ""

/-- The diagnosis dictionary assembled by `full_pipeline_cmd`: the
`version_bisection` / `pass_bisection` keys are present exactly when the
corresponding stage was invoked. -/
structure FullDiagnosis where
  ubDetection : UBCmdResult
  versionBisection : Option VersionCmdResult
  passBisection : Option PassCmdResult
deriving Repr, DecidableEq

/-- Embedding of `full_pipeline_cmd` (diagnose.py lines 335-399).  The stage
results `versionRun` and `passRun` are the values the bisection stages would
return if invoked; a stage was invoked iff its result appears in the output
record. -/
def fullPipelineCmd (ub : UBCmdResult) (versionRun : VersionCmdResult)
    (passRun : PassCmdResult) : FullDiagnosis :=
  if ub.verdict = "user_ub" then
    -- `return {"ub_detection": ..., "recommendation": ...}`: no bisection keys
    { ubDetection := ub, versionBisection := none, passBisection := none }
  else if !(pyTruthy versionRun.firstBad) then
    -- `if not version_result.get('first_bad_version'): return {...}`
    { ubDetection := ub, versionBisection := some versionRun, passBisection := none }
  else
    { ubDetection := ub, versionBisection := some versionRun, passBisection := some passRun }

end Orchestrator

namespace Collector

/-- The fields of an anomaly report consumed by `Database.insert_report` and
`Database._compute_dedupe_hash` (collector/src/models.py). -/
structure Report where
  reportId : String
  timestamp : String
  checkType : String
  locFile : String
  locLine : Nat
  locFunction : String
  compilerName : String
  compilerVersion : String
  optimizationLevel : String
  flags : List String
deriving Repr, DecidableEq

/-- Embedding of `Database._compute_dedupe_hash` (models.py lines 146-186).
The key string is built exactly as in the source
(`file:line:function:check_type:compiler_version:sorted-flags`); the final
`hashlib.sha256(...).hexdigest()` is modelled as the identity on the key
string.  The claims under verification depend only on the hash being a
deterministic function of the key, which holds for any post-composed hash. -/
def computeDedupeHash (r : Report) : String :=
  let location := r.locFile ++ ":" ++ toString r.locLine ++ ":" ++ r.locFunction
  let flags := String.intercalate "," (r.flags.mergeSort (fun a b => a ≤ b))
  location ++ ":" ++ r.checkType ++ ":" ++ r.compilerVersion ++ ":" ++ flags

/-- A row of the `reports` table, restricted to the columns the claims
mention. -/
structure Row where
  id : Nat
  reportId : String
  dedupeHash : String
  frequency : Nat
  firstSeen : String
  lastSeen : String
  status : String
deriving Repr, DecidableEq

/-- The `reports` table plus the AUTOINCREMENT counter. -/
structure DB where
  rows : List Row
  nextId : Nat
deriving Repr, DecidableEq

/-- A freshly created database (`Database.connect` on a new file). -/
def emptyDB : DB := { rows := [], nextId := 0 }

/-- Embedding of `Database.insert_report` (models.py lines 70-144).
`now` stands for `datetime.now(timezone.utc).isoformat()`.  The duplicate
branch mirrors the `SELECT ... WHERE dedupe_hash = ?` + `UPDATE`; the insert
branch mirrors the `INSERT`.  `none` models the uncaught sqlite
IntegrityError raised when a new row would violate the `report_id` UNIQUE
constraint (nothing is committed in that case). -/
def insertReport (db : DB) (r : Report) (now : String) : Option (DB × Nat) :=
  let h := computeDedupeHash r
  match db.rows.find? (fun row => row.dedupeHash == h) with
  | some existing =>
    some ({ db with rows := db.rows.map (fun q =>
        if q.id = existing.id then
          { q with frequency := existing.frequency + 1, lastSeen := now }
        else q) }, existing.id)
  | none =>
    if db.rows.any (fun q => q.reportId == r.reportId) then
      none
    else
      let newRow : Row :=
        { id := db.nextId, reportId := r.reportId, dedupeHash := h, frequency := 1,
          firstSeen := now, lastSeen := now, status := "new" }
      some ({ rows := db.rows ++ [newRow], nextId := db.nextId + 1 }, db.nextId)

/-- The two counters of `Database.get_stats` the claims mention. -/
structure Stats where
  totalReports : Nat
  uniqueBugs : Nat
deriving Repr, DecidableEq

/-- Embedding of `Database.get_stats` (models.py lines 309-333):
`COUNT(*)` and `COUNT(DISTINCT dedupe_hash)`. -/
def getStats (db : DB) : Stats :=
  { totalReports := db.rows.length,
    uniqueBugs := ((db.rows.map (fun row => row.dedupeHash)).dedup).length }

/-- A sequence of `insert_report` calls; a failed insert (IntegrityError)
leaves the database unchanged. -/
def insertAll (db : DB) (submissions : List (Report × String)) : DB :=
  submissions.foldl (fun acc rs =>
    match insertReport acc rs.1 rs.2 with
    | some (db', _) => db'
    | none => acc) db

/-- Invariant: no two rows share a dedupe hash. -/
def HashesNodup (db : DB) : Prop :=
  (db.rows.map (fun row => row.dedupeHash)).Nodup

/-- The single row left after submitting the same report twice (frequency 2,
first seen at `t₁`, last seen at `t₂`). -/
def dupRow (r : Report) (t₁ t₂ : String) : Row :=
  { id := 0, reportId := r.reportId, dedupeHash := computeDedupeHash r, frequency := 2,
    firstSeen := t₁, lastSeen := t₂, status := "new" }

/-- A concrete anomaly report (empty flag list). -/
def sampleReport : Report :=
  { reportId := "rpt-1", timestamp := "2024-01-01T00:00:00+00:00",
    checkType := "arithmetic_overflow", locFile := "foo.c", locLine := 42,
    locFunction := "main", compilerName := "clang", compilerVersion := "17.0.1",
    optimizationLevel := "O2", flags := [] }

/-- A stored row deduplicating with `sampleReport`. -/
def sampleRow : Row :=
  { id := 0, reportId := "rpt-1", dedupeHash := computeDedupeHash sampleReport,
    frequency := 1, firstSeen := "t0", lastSeen := "t0", status := "new" }

/-- A one-row database containing `sampleRow`. -/
def sampleDB : DB := { rows := [sampleRow], nextId := 1 }

end Collector

namespace PassBisector

/-- Embedding of `PassBisectionResult` (pass_bisector.py lines 28-38), with
pipeline positions as natural numbers. -/
structure PassBisectionResult where
  culpritPass : Option String
  culpritIndex : Option Nat
  lastGoodIndex : Option Nat
  testedIndices : List Nat
  totalTests : Nat
  verdict : String
  passPipeline : List String
deriving Repr, DecidableEq

/-- State of the binary-search loop of `PassBisector.bisect` (pass_bisector.py
lines 367-394): the boundaries, the last prefix length observed to pass, and
the running test log. -/
structure LoopState where
  left : Nat
  right : Nat
  lastGoodIdx : Nat
  testedIndices : List Nat
  totalTests : Nat
deriving Repr, DecidableEq

/-- The `while left < right - 1` loop of `PassBisector.bisect`.  The oracle
`test k` is the outcome of `_compile_and_test_with_passes` on the prefix of
length `k` (`true` = test passes, i.e. no bug); the claims presuppose a
deterministic compile-and-test environment, so the outcome is a function of
the prefix length. -/
def passLoop (test : Nat → Bool) (st : LoopState) : LoopState :=
  if h : st.left < st.right - 1 then
    -- `mid = (left + right) // 2`; testing appends to the log and bumps the counter
    if test ((st.left + st.right) / 2) then
      passLoop test
        { left := (st.left + st.right) / 2, right := st.right,
          lastGoodIdx := (st.left + st.right) / 2,
          testedIndices := st.testedIndices ++ [(st.left + st.right) / 2],
          totalTests := st.totalTests + 1 }
    else
      passLoop test
        { left := st.left, right := (st.left + st.right) / 2,
          lastGoodIdx := st.lastGoodIdx,
          testedIndices := st.testedIndices ++ [(st.left + st.right) / 2],
          totalTests := st.totalTests + 1 }
  else st
termination_by st.right - st.left
decreasing_by
  · omega
  · omega

/-- Embedding of `PassBisector.bisect` (pass_bisector.py lines 250-412),
starting after pipeline extraction: the extracted pipeline is an input (the
extraction invokes external toolchain processes; its failure modes produce the
`error` verdict, modelled by the empty-pipeline branch). -/
def bisect (passPipeline : List String) (test : Nat → Bool) : PassBisectionResult :=
  if passPipeline = [] then
    { culpritPass := none, culpritIndex := none, lastGoodIndex := none,
      testedIndices := [], totalTests := 0, verdict := "error", passPipeline := [] }
  else
    -- Test 1: baseline (0 passes) - should PASS
    let baselinePasses := test 0
    let tested : List Nat := [0]
    let total : Nat := 1
    if !baselinePasses then
      { culpritPass := none, culpritIndex := none, lastGoodIndex := none,
        testedIndices := tested, totalTests := total, verdict := "baseline_fails",
        passPipeline := passPipeline }
    else
      -- Test 2: full pipeline - should FAIL
      let n := passPipeline.length
      let fullPasses := test n
      let tested := tested ++ [n]
      let total := total + 1
      if fullPasses then
        { culpritPass := none, culpritIndex := none, lastGoodIndex := some n,
          testedIndices := tested, totalTests := total, verdict := "full_passes",
          passPipeline := passPipeline }
      else
        let final := passLoop test
          { left := 0, right := n, lastGoodIdx := 0, testedIndices := tested,
            totalTests := total }
        let culpritIdx := final.right - 1
        { culpritPass := passPipeline.get? culpritIdx,
          culpritIndex := some culpritIdx,
          lastGoodIndex := some final.lastGoodIdx,
          testedIndices := final.testedIndices.mergeSort (fun a b => a ≤ b),
          totalTests := final.totalTests,
          verdict := "bisected",
          passPipeline := passPipeline }

/-- Invariant of the pass-bisection loop: the left boundary passes, the right
boundary fails, the boundaries are ordered, the last good index is the left
boundary, and the test counter tracks the test log. -/
def LoopInv (test : Nat → Bool) (st : LoopState) : Prop :=
  test st.left = true ∧ test st.right = false ∧ st.left < st.right ∧
    st.lastGoodIdx = st.left ∧ st.totalTests = st.testedIndices.length

/-- The loop state reached by `bisect` after its two bookend probes. -/
def bisectFinal (passPipeline : List String) (test : Nat → Bool) : LoopState :=
  passLoop test
    { left := 0, right := passPipeline.length, lastGoodIdx := 0,
      testedIndices := [0] ++ [passPipeline.length], totalTests := 1 + 1 }

/-- Concrete pipeline used to instantiate the pass-bisector theorems. -/
def samplePipeline : List String := ["annotation2metadata", "forceattrs", "inferattrs"]

/-- Concrete deterministic oracle for the pass bisector: prefixes of length at
most 1 pass, longer prefixes fail. -/
def sampleTest : Nat → Bool := fun k => decide (k ≤ 1)

end PassBisector


namespace VersionBisector

/-- The ICE signature substrings of `_compile_local` / `_compile_with_docker`
(version_bisector.py lines 550-558). -/
def iceMarkers : List String :=
  ["PLEASE submit a bug report",
   "Internal compiler error",
   "internal compiler error",
   "Assertion failed",
   "Assertion `",
   "Stack dump:",
   "UNREACHABLE executed"]

/-- `is_ice = any(marker in result.stderr for marker in ice_markers)`. -/
def isICE (stderr : String) : Bool :=
  iceMarkers.any (fun marker => UBDetector.strContains stderr marker)

/-- Observables of one local compiler invocation for `_compile_local`: whether
a versioned `clang-V` executable exists, and the exit code / stderr of the
compilation when it runs. -/
structure CompileEnv where
  compilerFound : Bool
  returncode : Int
  stderr : String
deriving Repr, DecidableEq

/-- The tuple `(binary_path, compiler_found, compile_succeeded, stderr)`
returned by `_compile_local` (version_bisector.py lines 492-576), with the
binary path abstracted to a production flag. -/
structure CompileOutcome where
  binaryProduced : Bool
  compilerFound : Bool
  compileSucceeded : Bool
  stderrOut : Option String
deriving Repr, DecidableEq

/-- Embedding of `_compile_local` (version_bisector.py lines 492-576). -/
def compileLocal (env : CompileEnv) : CompileOutcome :=
  if !env.compilerFound then
    -- specific version not found: skip, never fall back to plain `clang`
    { binaryProduced := false, compilerFound := false, compileSucceeded := false,
      stderrOut := none }
  else if env.returncode != 0 then
    if isICE env.stderr then
      -- ICE: compiler bug manifested at compile time
      { binaryProduced := false, compilerFound := true, compileSucceeded := false,
        stderrOut := some env.stderr }
    else
      -- diagnostic error: mark with the DIAGNOSTIC_ERROR prefix for the caller
      { binaryProduced := false, compilerFound := true, compileSucceeded := false,
        stderrOut := some ("DIAGNOSTIC_ERROR: " ++ env.stderr) }
  else
    { binaryProduced := true, compilerFound := true, compileSucceeded := true,
      stderrOut := none }

/-- Python's `str.startswith`, via the underlying character lists. -/
def pyStartsWith (s p : String) : Bool := p.data.isPrefixOf s.data

/-- How `_test_version` records one probe: the `passes` value stored in
`details[version]` (also its return value), whether the version was appended
to `tested_versions`, and the `skipped` flag. -/
structure ProbeRecord where
  passes : Option Bool
  addedToTested : Bool
  skipped : Bool
deriving Repr, DecidableEq

/-- The classification logic of `_test_version` (version_bisector.py lines
388-490) applied to one compile outcome; `judge` is the result of running
`test_func` on the produced binary (the exception path records `passes =
False`, covered by taking `judge` to be that recorded value). -/
def classifyProbe (c : CompileOutcome) (judge : Bool) : ProbeRecord :=
  if !c.compilerFound then
    { passes := none, addedToTested := false, skipped := true }
  else if !c.compileSucceeded then
    -- `is_diagnostic_error = stderr and stderr.startswith("DIAGNOSTIC_ERROR:")`
    if (match c.stderrOut with
        | some s => s ≠ "" && pyStartsWith s "DIAGNOSTIC_ERROR:"
        | none => false) then
      { passes := none, addedToTested := false, skipped := true }
    else
      -- ICE is a compiler bug manifestation: test FAILURE, counted
      { passes := some false, addedToTested := true, skipped := false }
  else
    { passes := some judge, addedToTested := true, skipped := false }

/-- A full `_test_version` probe through `_compile_local`. -/
def testVersionLocal (env : CompileEnv) (judge : Bool) : ProbeRecord :=
  classifyProbe (compileLocal env) judge

/-- Mutable bisector state: `tested_versions` (genuine probes, in order) and
the key set of `details` (every probe, genuine or skipped).  Versions are
identified with their indices in `self.versions` (a list of distinct version
strings, so index order is version order). -/
structure BState where
  tested : List Nat
  probed : List Nat
deriving Repr, DecidableEq

/-- One `_test_version` call at bisection level: the oracle gives the probe
outcome for each version index (`some true` pass, `some false` fail, `none`
skip); it is a function of the index because `details` caches each version's
outcome and every version is probed at most once.  Returns the `passes` value
and the updated state. -/
def testVersion (oracle : Nat → Option Bool) (s : BState) (v : Nat) :
    Option Bool × BState :=
  let r := oracle v
  (r, { tested := if r.isSome then s.tested ++ [v] else s.tested,
        probed := s.probed ++ [v] })

/-- The endpoint bookkeeping shared by the discovery code of `bisect`
(version_bisector.py lines 112-133 and 150-156/168-174):
a genuine pass fills `passing_idx` if unset, a genuine fail fills
`failing_idx` if unset, a skip changes nothing. -/
def updateEndpoints (passing failing : Option Nat) (idx : Nat) (r : Option Bool) :
    Option Nat × Option Nat :=
  match r with
  | none => (passing, failing)
  | some true => if passing = none then (some idx, failing) else (passing, failing)
  | some false => if failing = none then (passing, some idx) else (passing, failing)

/-- One endpoint-discovery probe: `_test_version` the index, then update
`passing_idx` / `failing_idx` as in the discovery code.  Returns the raw probe
result, the updated endpoint trackers and the updated state. -/
def probeStep (oracle : Nat → Option Bool) (s : BState) (passing failing : Option Nat)
    (idx : Nat) : Option Bool × Option Nat × Option Nat × BState :=
  let r := (testVersion oracle s idx).1
  let s' := (testVersion oracle s idx).2
  let pf := updateEndpoints passing failing idx r
  (r, pf.1, pf.2, s')

/-- The inward march of endpoint discovery (version_bisector.py lines
139-179): alternately probe from the left and the right end until both a
passing and a failing version are found or the range is exhausted.  The fuel
only bounds iterations (`left` grows every iteration, so `n + 2` is always
enough); on exhaustion the current state is returned, exactly like the normal
loop exit. -/
def march (oracle : Nat → Option Bool) :
    Nat → BState → Option Nat → Option Nat → Nat → Nat → Option Nat × Option Nat × BState
  | 0, s, passing, failing, _, _ => (passing, failing, s)
  | fuel + 1, s, passing, failing, left, right =>
    if (passing.isNone || failing.isNone) && decide (left ≤ right) then
      -- test from left
      match probeStep oracle s passing failing left with
      | (r, p1, f1, s1) =>
        if r.isSome && (p1.isSome && f1.isSome) then (p1, f1, s1)
        else
          -- `left += 1`, then test from right if still needed
          if (p1.isNone || f1.isNone) && decide (left + 1 ≤ right) then
            match probeStep oracle s1 p1 f1 right with
            | (r2, p2, f2, s2) =>
              if r2.isSome && (p2.isSome && f2.isSome) then (p2, f2, s2)
              else march oracle fuel s2 p2 f2 (left + 1) (right - 1)
          else march oracle fuel s1 p1 f1 (left + 1) right
    else (passing, failing, s)

/-- The extreme-endpoint probes of `bisect` (version_bisector.py lines
99-133): test the oldest version (index `0`), then the newest (index `n - 1`)
unless it coincides with the oldest.  Returns `(passing_idx, failing_idx,
state)`. -/
def discoverInit (oracle : Nat → Option Bool) (n : Nat) :
    Option Nat × Option Nat × BState :=
  let step0 := probeStep oracle { tested := [], probed := [] } none none 0
  if n - 1 ≠ 0 then
    -- `if max_idx != min_idx:` - also test the newest version
    let step1 := probeStep oracle step0.2.2.2 step0.2.1 step0.2.2.1 (n - 1)
    (step1.2.1, step1.2.2.1, step1.2.2.2)
  else (step0.2.1, step0.2.2.1, step0.2.2.2)

/-- Endpoint discovery of `bisect` (version_bisector.py lines 99-179) for a
version list of length `n ≥ 1`: test the extremes, then march inward unless
both a passing and a failing endpoint were already found. -/
def discoverEndpoints (oracle : Nat → Option Bool) (n : Nat) :
    Option Nat × Option Nat × BState :=
  if (discoverInit oracle n).1.isSome && (discoverInit oracle n).2.1.isSome then
    discoverInit oracle n
  else
    march oracle (n + 2) (discoverInit oracle n).2.2 (discoverInit oracle n).1
      (discoverInit oracle n).2.1 (0 + 1) (n - 1 - 1)

/-- Result of the alternate-mid scan: whether a testable version was found,
the (possibly updated) boundaries and trackers, and the updated state. -/
structure ScanResult where
  found : Bool
  left : Nat
  right : Nat
  lastGood : Option Nat
  firstBad : Option Nat
  s : BState
deriving Repr, DecidableEq

/-- One side of the alternate-mid probe (version_bisector.py lines 335-372):
probe `test_idx` when it lies in range (`inRange`) and is not yet in
`details`; a genuine outcome builds the post-update scan result (pass:
`left = test_idx + 1`, `last_good = test_idx`; fail: `right = test_idx`,
`first_bad = test_idx`), a skip returns only the updated state. -/
def sideProbe (oracle : Nat → Option Bool) (ti : Nat) (inRange : Bool)
    (left right : Nat) (lg fb : Option Nat) (s : BState) : Option ScanResult × BState :=
  if inRange && !(s.probed.contains ti) then
    match oracle ti with
    | some true =>
      (some { found := true, left := ti + 1, right := right, lastGood := some ti,
              firstBad := fb, s := (testVersion oracle s ti).2 },
       (testVersion oracle s ti).2)
    | some false =>
      (some { found := true, left := left, right := ti, lastGood := lg,
              firstBad := some ti, s := (testVersion oracle s ti).2 },
       (testVersion oracle s ti).2)
    | none => (none, (testVersion oracle s ti).2)
  else (none, s)

/-- The alternate-mid probe of the binary search (version_bisector.py lines
332-372): for offsets `1, 2, ...` try `mid + offset` then `mid - offset`,
probing only versions not yet in `details` and inside `[left, right]`; the
first genuine outcome moves the boundaries exactly as a tested mid would.
In Python `mid - offset` may be negative, making `test_idx >= left` false; the
guard `offset ≤ mid` models that for `Nat`.  `rem` counts the remaining
offsets (`max_offset` at the initial call). -/
def altScan (oracle : Nat → Option Bool) (mid : Nat) :
    Nat → Nat → Nat → Nat → Option Nat → Option Nat → BState → ScanResult
  | 0, _, left, right, lg, fb, s =>
    { found := false, left := left, right := right, lastGood := lg, firstBad := fb, s := s }
  | rem + 1, offset, left, right, lg, fb, s =>
    -- right side: `test_idx = mid + offset`
    match sideProbe oracle (mid + offset) (decide (mid + offset ≤ right))
        left right lg fb s with
    | (some res, _) => res
    | (none, s1) =>
      -- left side: `test_idx = mid - offset`
      match sideProbe oracle (mid - offset)
          (decide (offset ≤ mid) && decide (left ≤ mid - offset)) left right lg fb s1 with
      | (some res, _) => res
      | (none, s2) => altScan oracle mid rem (offset + 1) left right lg fb s2

/-- State of the binary-search loop (version_bisector.py lines 284-377). -/
structure SearchState where
  left : Nat
  right : Nat
  lastGood : Option Nat
  firstBad : Option Nat
  s : BState
deriving Repr, DecidableEq

/-- One iteration of the `while left < right` body: consult `details` for the
mid (or probe it), move the boundaries on a genuine outcome, otherwise run the
alternate-mid scan.  The returned flag is `true` when the loop continues and
`false` on `break` (no testable version left in range). -/
def stepMid (oracle : Nat → Option Bool) (st : SearchState) : Bool × SearchState :=
  let mid := (st.left + st.right) / 2
  if st.s.probed.contains mid then
    -- `if version in details:` - reuse the cached outcome, do not reprobe
    match oracle mid with
    | some true =>
      (true, { left := mid + 1, right := st.right, lastGood := some mid,
               firstBad := st.firstBad, s := st.s })
    | some false =>
      (true, { left := st.left, right := mid, lastGood := st.lastGood,
               firstBad := some mid, s := st.s })
    | none =>
      -- previously skipped mid: boundaries stay, find an alternate version
      let res := altScan oracle mid (max (mid - st.left) (st.right - mid)) 1
        st.left st.right st.lastGood st.firstBad st.s
      (res.found, { left := res.left, right := res.right, lastGood := res.lastGood,
                    firstBad := res.firstBad, s := res.s })
  else
    let (r, s1) := testVersion oracle st.s mid
    match r with
    | some true =>
      (true, { left := mid + 1, right := st.right, lastGood := some mid,
               firstBad := st.firstBad, s := s1 })
    | some false =>
      (true, { left := st.left, right := mid, lastGood := st.lastGood,
               firstBad := some mid, s := s1 })
    | none =>
      let res := altScan oracle mid (max (mid - st.left) (st.right - mid)) 1
        st.left st.right st.lastGood st.firstBad s1
      (res.found, { left := res.left, right := res.right, lastGood := res.lastGood,
                    firstBad := res.firstBad, s := res.s })

/-- The `while left < right` loop.  The fuel only bounds iterations (each
continuing iteration shrinks `right - left` or probes a fresh version, so
`2 * n + 2` is always enough for an `n`-version list); on exhaustion the
current state is returned, exactly like `break`. -/
def searchLoop (oracle : Nat → Option Bool) : Nat → SearchState → SearchState
  | 0, st => st
  | fuel + 1, st =>
    if st.left < st.right then
      match stepMid oracle st with
      | (true, st') => searchLoop oracle fuel st'
      | (false, st') => st'
    else st

/-- Embedding of `VersionBisectionResult` (version_bisector.py lines 22-30),
with versions identified by their indices. -/
structure VersionBisectionResult where
  firstBad : Option Nat
  lastGood : Option Nat
  tested : List Nat
  totalTests : Nat
  verdict : String
deriving Repr, DecidableEq

/-- The bisection phase of `bisect` (version_bisector.py lines 227-386), run
once endpoint discovery has produced a passing index `p` and a failing index
`f`. -/
def bisectPhase (oracle : Nat → Option Bool) (fuel : Nat) (p f : Nat) (s : BState) :
    VersionBisectionResult :=
  let firstIdx := min p f
  let lastIdx := max p f
  let firstPasses := decide (p < f)
  let lastPasses := decide (f < p)
  if firstPasses == lastPasses then
    -- `raise RuntimeError(...)`: endpoints with the same outcome
    { firstBad := none, lastGood := none, tested := s.tested,
      totalTests := s.tested.length, verdict := "error" }
  else
    let init : Option Nat × Option Nat :=
      if !firstPasses then (some firstIdx, none) else (none, some firstIdx)
    -- `(first_bad_idx, last_good_idx)` after the two assignment blocks
    let fbLg : Option Nat × Option Nat :=
      if lastPasses then (init.1, some lastIdx) else (some lastIdx, init.2)
    let final := searchLoop oracle fuel
      { left := firstIdx, right := lastIdx, lastGood := fbLg.2,
        firstBad := fbLg.1, s := s }
    { firstBad := final.firstBad,
      lastGood :=
        match final.lastGood, final.firstBad with
        | some lg, none => some lg
        | some lg, some fb => if lg < fb then some lg else none
        | none, _ => none,
      tested := final.s.tested,
      totalTests := final.s.tested.length,
      verdict := "bisected" }

/-- Embedding of `VersionBisector.bisect` (version_bisector.py lines 68-386)
over a version list of length `n` (indices `0 .. n-1`). -/
def bisect (oracle : Nat → Option Bool) (n : Nat) (fuel : Nat) : VersionBisectionResult :=
  if n = 0 then
    -- `self.versions[min_idx]` would raise IndexError on an empty list
    { firstBad := none, lastGood := none, tested := [], totalTests := 0, verdict := "error" }
  else
    let (passing, failing, s) := discoverEndpoints oracle n
    match passing, failing with
    | none, none =>
      { firstBad := none, lastGood := none, tested := s.tested,
        totalTests := s.tested.length, verdict := "insufficient_compilers" }
    | some _, none =>
      -- all installed compilers pass: highest tested index
      { firstBad := none, lastGood := some (s.tested.foldl max 0), tested := s.tested,
        totalTests := s.tested.length, verdict := "all_pass" }
    | none, some _ =>
      -- all installed compilers fail: lowest tested index
      { firstBad := some (match s.tested with
                          | [] => 0
                          | x :: xs => xs.foldl min x),
        lastGood := none, tested := s.tested,
        totalTests := s.tested.length, verdict := "all_fail" }
    | some p, some f => bisectPhase oracle fuel p f s

/-- An option points at a version genuinely tested with a passing outcome. -/
def GoodOpt (oracle : Nat → Option Bool) (s : BState) (o : Option Nat) : Prop :=
  ∀ g, o = some g → g ∈ s.tested ∧ oracle g = some true

/-- An option points at a version genuinely tested with a failing outcome. -/
def BadOpt (oracle : Nat → Option Bool) (s : BState) (o : Option Nat) : Prop :=
  ∀ b, o = some b → b ∈ s.tested ∧ oracle b = some false

/-- Every probed version with a genuine outcome was appended to
`tested_versions`. -/
def ProbedInv (oracle : Nat → Option Bool) (s : BState) : Prop :=
  ∀ v ∈ s.probed, (oracle v).isSome → v ∈ s.tested

/-- The search-state invariant threaded through the binary-search loop. -/
def StInv (oracle : Nat → Option Bool) (st : SearchState) : Prop :=
  ProbedInv oracle st.s ∧ GoodOpt oracle st.s st.lastGood ∧ BadOpt oracle st.s st.firstBad

/-- A concrete oracle over an 8-version list with unavailable compilers at
indices 0, 3, 4, 6 and 7: versions 1 and 2 pass, version 5 fails.  The
underlying ground truth is monotone (passes up to index 2, fails from 3 on). -/
def probeWithSkips : Nat → Option Bool := fun i =>
  match i with
  | 1 => some true
  | 2 => some true
  | 5 => some false
  | _ => none

/-- The fully available oracle over the same monotone ground truth: indices up
to 2 pass, the rest fail. -/
def probeTotal : Nat → Option Bool := fun i => some (decide (i ≤ 2))

/-- An oracle for which every compiler is unavailable. -/
def probeAllSkip : Nat → Option Bool := fun _ => none

/-- A non-monotone oracle over an 8-version list with every compiler
available: versions 0 and 5 fail, all others pass (the bug is present in the
oldest release, fixed, and reintroduced at version 5). -/
def probeNonMono : Nat → Option Bool := fun i => some (decide (i ≠ 0 ∧ i ≠ 5))

/-- The genuine probe outcomes are monotone in version order: once a version
fails, no later version passes (the regression model the bisector is designed
for). -/
def MonoOracle (oracle : Nat → Option Bool) : Prop :=
  ∀ i j : Nat, i ≤ j → oracle i = some false → oracle j ≠ some true

/-- A concrete search state used to instantiate the boundary-preservation
theorems: range `[0, 2]` with the endpoints already tested. -/
def sampleSearchState : SearchState :=
  { left := 0, right := 2, lastGood := some 0, firstBad := some 2,
    s := { tested := [], probed := [] } }

/-- A concrete compile environment whose stderr carries a genuine ICE
signature. -/
def sampleICEEnv : CompileEnv :=
  { compilerFound := true, returncode := 1,
    stderr := "clang: error: Stack dump: ..." }

/-- A compile environment whose stderr contains an ICE marker but begins with
the in-band `DIAGNOSTIC_ERROR:` marker that `_compile_local` uses to flag
diagnostic rejections. -/
def diagMaskedICEEnv : CompileEnv :=
  { compilerFound := true, returncode := 1, stderr := "DIAGNOSTIC_ERROR: Stack dump:" }

end VersionBisector

/-! ### Theorems -/

namespace Collector

theorem insertReport_preserves_hashesNodup (db : DB) (r : Report) (now : String)
    (h : HashesNodup db) :
    ∀ db' i, insertReport db r now = some (db', i) → HashesNodup db' := by
  intro db' i hins
  rcases hfind : db.rows.find? (fun row => row.dedupeHash == computeDedupeHash r)
    with _ | existing
  · rcases hany : db.rows.any (fun q => q.reportId == r.reportId) with _ | _
    · simp only [insertReport, hfind, hany, Bool.false_eq_true, if_false,
        Option.some.injEq, Prod.mk.injEq] at hins
      obtain ⟨rfl, rfl⟩ := hins
      have hnotin : computeDedupeHash r ∉ db.rows.map (fun row => row.dedupeHash) := by
        intro hmem
        obtain ⟨row, hrow, hEq⟩ := List.mem_map.mp hmem
        have := List.find?_eq_none.mp hfind row hrow
        simp [hEq] at this
      unfold HashesNodup
      simp only [List.map_append, List.map_cons, List.map_nil]
      rw [List.nodup_append]
      refine ⟨h, List.nodup_singleton _, ?_⟩
      intro a ha hb
      simp only [List.mem_singleton] at hb
      subst hb
      exact hnotin ha
    · simp [insertReport, hfind, hany] at hins
  · simp only [insertReport, hfind, Option.some.injEq, Prod.mk.injEq] at hins
    obtain ⟨rfl, rfl⟩ := hins
    unfold HashesNodup
    have : (db.rows.map (fun q =>
        if q.id = existing.id then
          { q with frequency := existing.frequency + 1, lastSeen := now }
        else q)).map (fun row => row.dedupeHash)
        = db.rows.map (fun row => row.dedupeHash) := by
      rw [List.map_map]
      refine List.map_congr_left ?_
      intro q _
      by_cases hq : q.id = existing.id <;> simp [hq]
    unfold HashesNodup at h
    simpa [this] using h

theorem insertAll_hashesNodup (submissions : List (Report × String)) :
    ∀ db : DB, HashesNodup db → HashesNodup (insertAll db submissions) := by
  induction submissions with
  | nil => intro db h; simpa [insertAll] using h
  | cons rs rest ih =>
    intro db h
    show HashesNodup (insertAll _ rest)
    rcases hins : insertReport db rs.1 rs.2 with _ | ⟨db', i⟩
    · have : insertAll db (rs :: rest) = insertAll db rest := by
        simp [insertAll, hins]
      exact this ▸ ih db h
    · have : insertAll db (rs :: rest) = insertAll db' rest := by
        simp [insertAll, hins]
      exact this ▸ ih db' (insertReport_preserves_hashesNodup db rs.1 rs.2 h db' i hins)

end Collector

namespace PassBisector

theorem passLoop_inv (test : Nat → Bool) (st : LoopState) (h : LoopInv test st) :
    LoopInv test (passLoop test st) ∧
      (passLoop test st).right = (passLoop test st).left + 1 ∧
      st.left ≤ (passLoop test st).left ∧ (passLoop test st).right ≤ st.right := by
  obtain ⟨h1, h2, h3, h4, h5⟩ := h
  rw [passLoop]
  split
  · rename_i hlt
    split
    · rename_i hmid
      have hrec := passLoop_inv test
        { left := (st.left + st.right) / 2, right := st.right,
          lastGoodIdx := (st.left + st.right) / 2,
          testedIndices := st.testedIndices ++ [(st.left + st.right) / 2],
          totalTests := st.totalTests + 1 }
        ⟨hmid, h2, by show (st.left + st.right) / 2 < st.right; omega, rfl, by simp [h5]⟩
      refine ⟨hrec.1, hrec.2.1, ?_, hrec.2.2.2⟩
      refine le_trans ?_ hrec.2.2.1
      show st.left ≤ (st.left + st.right) / 2
      omega
    · rename_i hmid
      have hrec := passLoop_inv test
        { left := st.left, right := (st.left + st.right) / 2,
          lastGoodIdx := st.lastGoodIdx,
          testedIndices := st.testedIndices ++ [(st.left + st.right) / 2],
          totalTests := st.totalTests + 1 }
        ⟨h1, by simpa using hmid, by show st.left < (st.left + st.right) / 2; omega, h4,
          by simp [h5]⟩
      refine ⟨hrec.1, hrec.2.1, hrec.2.2.1, ?_⟩
      refine le_trans hrec.2.2.2 ?_
      show (st.left + st.right) / 2 ≤ st.right
      omega
  · rename_i hge
    exact ⟨⟨h1, h2, h3, h4, h5⟩, by omega, le_refl _, le_refl _⟩
termination_by st.right - st.left
decreasing_by
  · omega
  · omega

theorem bisect_eq_bisected (passPipeline : List String) (test : Nat → Bool)
    (hne : passPipeline ≠ []) (h0 : test 0 = true) (hn : test passPipeline.length = false) :
    bisect passPipeline test =
      { culpritPass := passPipeline.get? ((bisectFinal passPipeline test).right - 1),
        culpritIndex := some ((bisectFinal passPipeline test).right - 1),
        lastGoodIndex := some (bisectFinal passPipeline test).lastGoodIdx,
        testedIndices :=
          (bisectFinal passPipeline test).testedIndices.mergeSort (fun a b => a ≤ b),
        totalTests := (bisectFinal passPipeline test).totalTests,
        verdict := "bisected",
        passPipeline := passPipeline } := by
  unfold bisect bisectFinal
  simp [hne, h0, hn]

theorem verdict_bisected_iff (passPipeline : List String) (test : Nat → Bool) :
    (bisect passPipeline test).verdict = "bisected" ↔
      (passPipeline ≠ [] ∧ test 0 = true ∧ test passPipeline.length = false) := by
  constructor
  · intro hv
    by_cases hne : passPipeline = []
    · simp [bisect, hne] at hv
    · by_cases h0 : test 0 = true
      · by_cases hn : test passPipeline.length = false
        · exact ⟨hne, h0, hn⟩
        · rw [Bool.not_eq_false] at hn
          simp [bisect, hne, h0, hn] at hv
      · rw [Bool.not_eq_true] at h0
        simp [bisect, hne, h0] at hv
  · intro ⟨hne, h0, hn⟩
    rw [bisect_eq_bisected passPipeline test hne h0 hn]

theorem bisectFinal_spec (passPipeline : List String) (test : Nat → Bool)
    (hne : passPipeline ≠ []) (h0 : test 0 = true) (hn : test passPipeline.length = false) :
    LoopInv test (bisectFinal passPipeline test) ∧
      (bisectFinal passPipeline test).right = (bisectFinal passPipeline test).left + 1 ∧
      (bisectFinal passPipeline test).right ≤ passPipeline.length := by
  have hlen : 0 < passPipeline.length := List.length_pos.mpr hne
  have h := passLoop_inv test
    { left := 0, right := passPipeline.length, lastGoodIdx := 0,
      testedIndices := [0] ++ [passPipeline.length], totalTests := 1 + 1 }
    ⟨h0, hn, hlen, rfl, rfl⟩
  exact ⟨h.1, h.2.1, h.2.2.2⟩

/-- C3: for every run of `PassBisector.bisect` that returns verdict
`"bisected"` with `culprit_index = k`, the prefix of the first `k` pipeline
passes tests as `Passed`, the prefix of the first `k + 1` passes tests as
`Failed`, `k` is a valid pipeline position, and `culprit_pass` is the
pipeline element at index `k`. -/
theorem c3_pass_bisect_culprit_correct (passPipeline : List String) (test : Nat → Bool)
    (hv : (bisect passPipeline test).verdict = "bisected") (k : Nat)
    (hk : (bisect passPipeline test).culpritIndex = some k) :
    test k = true ∧ test (k + 1) = false ∧ k < passPipeline.length ∧
      (bisect passPipeline test).culpritPass = passPipeline.get? k := by
  obtain ⟨hne, h0, hn⟩ := (verdict_bisected_iff _ _).mp hv
  obtain ⟨hInv, hAdj, hLe⟩ := bisectFinal_spec passPipeline test hne h0 hn
  obtain ⟨h1, h2, h3, h4, h5⟩ := hInv
  rw [bisect_eq_bisected passPipeline test hne h0 hn] at hk
  simp only [Option.some.injEq] at hk
  subst hk
  refine ⟨?_, ?_, by omega, ?_⟩
  · have heq : (bisectFinal passPipeline test).right - 1 = (bisectFinal passPipeline test).left := by
      omega
    rw [heq]
    exact h1
  · have heq : (bisectFinal passPipeline test).right - 1 + 1 = (bisectFinal passPipeline test).right := by
      omega
    rw [heq]
    exact h2
  · rw [bisect_eq_bisected passPipeline test hne h0 hn]

/-- Witness for C3 at a concrete pipeline and oracle (culprit index 1). -/
theorem c3_pass_bisect_culprit_correct_witness :
    sampleTest 1 = true ∧ sampleTest (1 + 1) = false ∧ 1 < samplePipeline.length ∧
      (bisect samplePipeline sampleTest).culpritPass = samplePipeline.get? 1 :=
  c3_pass_bisect_culprit_correct samplePipeline sampleTest
    (by simp [bisect, passLoop, sampleTest, samplePipeline])
    1
    (by simp [bisect, passLoop, sampleTest, samplePipeline])

/-- C9 (implicit): in every `PassBisectionResult` with verdict `"bisected"`,
`last_good_index` equals `culprit_index`, and `total_tests` equals the number
of entries of `tested_indices`. -/
theorem c9_pass_bisect_lastGood_eq_culprit (passPipeline : List String) (test : Nat → Bool)
    (hv : (bisect passPipeline test).verdict = "bisected") :
    (bisect passPipeline test).lastGoodIndex = (bisect passPipeline test).culpritIndex ∧
      (bisect passPipeline test).totalTests =
        (bisect passPipeline test).testedIndices.length := by
  obtain ⟨hne, h0, hn⟩ := (verdict_bisected_iff _ _).mp hv
  obtain ⟨hInv, hAdj, hLe⟩ := bisectFinal_spec passPipeline test hne h0 hn
  obtain ⟨h1, h2, h3, h4, h5⟩ := hInv
  rw [bisect_eq_bisected passPipeline test hne h0 hn]
  constructor
  · simp only [Option.some.injEq]
    omega
  · simp only [List.length_mergeSort]
    exact h5

/-- Witness for C9 at a concrete pipeline and oracle. -/
theorem c9_pass_bisect_lastGood_eq_culprit_witness :
    (bisect samplePipeline sampleTest).lastGoodIndex =
        (bisect samplePipeline sampleTest).culpritIndex ∧
      (bisect samplePipeline sampleTest).totalTests =
        (bisect samplePipeline sampleTest).testedIndices.length :=
  c9_pass_bisect_lastGood_eq_culprit samplePipeline sampleTest
    (by simp [bisect, passLoop, sampleTest, samplePipeline])

end PassBisector

namespace VersionBisector

theorem testVersion_fst (oracle : Nat → Option Bool) (s : BState) (v : Nat) :
    (testVersion oracle s v).1 = oracle v := rfl

theorem mem_tested_testVersion (oracle : Nat → Option Bool) (s : BState) (v x : Nat)
    (h : x ∈ s.tested) : x ∈ (testVersion oracle s v).2.tested := by
  unfold testVersion
  rcases oracle v with _ | b <;> simp [h]

theorem self_mem_tested_testVersion (oracle : Nat → Option Bool) (s : BState) (v : Nat)
    (h : (oracle v).isSome) : v ∈ (testVersion oracle s v).2.tested := by
  unfold testVersion
  rcases hv : oracle v with _ | b
  · rw [hv] at h; simp at h
  · simp [hv]

theorem probedInv_testVersion (oracle : Nat → Option Bool) (s : BState) (v : Nat)
    (h : ProbedInv oracle s) : ProbedInv oracle (testVersion oracle s v).2 := by
  intro w hw hsome
  unfold testVersion at hw ⊢
  rcases hv : oracle v with _ | b
  · simp [hv] at hw ⊢
    rcases hw with hw | hw
    · exact h w hw hsome
    · subst hw
      rw [hv] at hsome
      simp at hsome
  · simp [hv] at hw ⊢
    rcases hw with hw | hw
    · exact Or.inl (h w hw hsome)
    · exact Or.inr hw

theorem goodOpt_testVersion (oracle : Nat → Option Bool) (s : BState) (v : Nat)
    (o : Option Nat) (h : GoodOpt oracle s o) : GoodOpt oracle (testVersion oracle s v).2 o := by
  intro g hg
  obtain ⟨hmem, hval⟩ := h g hg
  exact ⟨mem_tested_testVersion oracle s v g hmem, hval⟩

theorem badOpt_testVersion (oracle : Nat → Option Bool) (s : BState) (v : Nat)
    (o : Option Nat) (h : BadOpt oracle s o) : BadOpt oracle (testVersion oracle s v).2 o := by
  intro b hb
  obtain ⟨hmem, hval⟩ := h b hb
  exact ⟨mem_tested_testVersion oracle s v b hmem, hval⟩

theorem updateEndpoints_good (oracle : Nat → Option Bool) (s : BState)
    (passing failing : Option Nat) (idx : Nat)
    (hmem : (oracle idx).isSome → idx ∈ s.tested)
    (hp : GoodOpt oracle s passing) (hf : BadOpt oracle s failing) :
    GoodOpt oracle s (updateEndpoints passing failing idx (oracle idx)).1 ∧
      BadOpt oracle s (updateEndpoints passing failing idx (oracle idx)).2 := by
  rcases hv : oracle idx with _ | b
  · simpa [updateEndpoints] using ⟨hp, hf⟩
  · have hm : idx ∈ s.tested := hmem (by rw [hv]; rfl)
    rcases b with _ | _
    · -- some false: failing may be filled
      by_cases hn : failing = none
      · simp only [updateEndpoints, hn, if_pos]
        refine ⟨hp, ?_⟩
        intro b hb
        simp only [Option.some.injEq] at hb
        subst hb
        exact ⟨hm, hv⟩
      · simp only [updateEndpoints, hn, if_neg, if_false]
        exact ⟨hp, hf⟩
    · -- some true: passing may be filled
      by_cases hn : passing = none
      · simp only [updateEndpoints, hn, if_pos]
        refine ⟨?_, hf⟩
        intro g hg
        simp only [Option.some.injEq] at hg
        subst hg
        exact ⟨hm, hv⟩
      · simp only [updateEndpoints, hn, if_neg, if_false]
        exact ⟨hp, hf⟩

/-- `probeStep` preserves the endpoint invariants; the probed index is
genuinely tested whenever its outcome is genuine. -/
theorem probeStep_inv (oracle : Nat → Option Bool) (s : BState)
    (passing failing : Option Nat) (idx : Nat)
    (hP : ProbedInv oracle s) (hG : GoodOpt oracle s passing) (hB : BadOpt oracle s failing) :
    ProbedInv oracle (probeStep oracle s passing failing idx).2.2.2 ∧
      GoodOpt oracle (probeStep oracle s passing failing idx).2.2.2
        (probeStep oracle s passing failing idx).2.1 ∧
      BadOpt oracle (probeStep oracle s passing failing idx).2.2.2
        (probeStep oracle s passing failing idx).2.2.1 := by
  unfold probeStep
  simp only [testVersion_fst]
  have hmem : (oracle idx).isSome → idx ∈ (testVersion oracle s idx).2.tested :=
    fun h => self_mem_tested_testVersion oracle s idx h
  have hupd := updateEndpoints_good oracle (testVersion oracle s idx).2 passing failing idx hmem
    (goodOpt_testVersion oracle s idx passing hG)
    (badOpt_testVersion oracle s idx failing hB)
  exact ⟨probedInv_testVersion oracle s idx hP, hupd.1, hupd.2⟩

theorem march_inv (oracle : Nat → Option Bool) :
    ∀ (fuel : Nat) (s : BState) (passing failing : Option Nat) (left right : Nat),
      ProbedInv oracle s → GoodOpt oracle s passing → BadOpt oracle s failing →
      ProbedInv oracle (march oracle fuel s passing failing left right).2.2 ∧
        GoodOpt oracle (march oracle fuel s passing failing left right).2.2
          (march oracle fuel s passing failing left right).1 ∧
        BadOpt oracle (march oracle fuel s passing failing left right).2.2
          (march oracle fuel s passing failing left right).2.1 := by
  intro fuel
  induction fuel with
  | zero =>
    intro s p f l r hP hG hB
    exact ⟨hP, hG, hB⟩
  | succ fuel ih =>
    intro s p f l r hP hG hB
    rw [march]
    split
    · rcases hps : probeStep oracle s p f l with ⟨r1, p1, f1, s1⟩
      have h1 := probeStep_inv oracle s p f l hP hG hB
      rw [hps] at h1
      obtain ⟨hP1, hG1, hB1⟩ := h1
      simp only [hps]
      split
      · exact ⟨hP1, hG1, hB1⟩
      · split
        · rcases hps2 : probeStep oracle s1 p1 f1 r with ⟨r2, p2, f2, s2⟩
          have h2 := probeStep_inv oracle s1 p1 f1 r hP1 hG1 hB1
          rw [hps2] at h2
          obtain ⟨hP2, hG2, hB2⟩ := h2
          simp only [hps2]
          split
          · exact ⟨hP2, hG2, hB2⟩
          · exact ih s2 p2 f2 (l + 1) (r - 1) hP2 hG2 hB2
        · exact ih s1 p1 f1 (l + 1) r hP1 hG1 hB1
    · exact ⟨hP, hG, hB⟩

theorem discoverInit_inv (oracle : Nat → Option Bool) (n : Nat) :
    ProbedInv oracle (discoverInit oracle n).2.2 ∧
      GoodOpt oracle (discoverInit oracle n).2.2 (discoverInit oracle n).1 ∧
      BadOpt oracle (discoverInit oracle n).2.2 (discoverInit oracle n).2.1 := by
  have hP0 : ProbedInv oracle { tested := [], probed := [] } := by
    intro v hv
    simp at hv
  have hG0 : GoodOpt oracle { tested := [], probed := [] } none := by
    intro g hg
    simp at hg
  have hB0 : BadOpt oracle { tested := [], probed := [] } none := by
    intro b hb
    simp at hb
  have h1 := probeStep_inv oracle { tested := [], probed := [] } none none 0 hP0 hG0 hB0
  have h2 := probeStep_inv oracle
    (probeStep oracle { tested := [], probed := [] } none none 0).2.2.2
    (probeStep oracle { tested := [], probed := [] } none none 0).2.1
    (probeStep oracle { tested := [], probed := [] } none none 0).2.2.1
    (n - 1) h1.1 h1.2.1 h1.2.2
  simp only [discoverInit]
  split
  · exact ⟨h2.1, h2.2.1, h2.2.2⟩
  · exact ⟨h1.1, h1.2.1, h1.2.2⟩

theorem discoverEndpoints_inv (oracle : Nat → Option Bool) (n : Nat) :
    ProbedInv oracle (discoverEndpoints oracle n).2.2 ∧
      GoodOpt oracle (discoverEndpoints oracle n).2.2 (discoverEndpoints oracle n).1 ∧
      BadOpt oracle (discoverEndpoints oracle n).2.2 (discoverEndpoints oracle n).2.1 := by
  have h := discoverInit_inv oracle n
  unfold discoverEndpoints
  split
  · exact h
  · exact march_inv oracle (n + 2) (discoverInit oracle n).2.2 (discoverInit oracle n).1
      (discoverInit oracle n).2.1 (0 + 1) (n - 1 - 1) h.1 h.2.1 h.2.2

theorem sideProbe_spec (oracle : Nat → Option Bool) (ti : Nat) (inRange : Bool)
    (left right : Nat) (lg fb : Option Nat) (s : BState)
    (hP : ProbedInv oracle s) (hG : GoodOpt oracle s lg) (hB : BadOpt oracle s fb) :
    (ProbedInv oracle (sideProbe oracle ti inRange left right lg fb s).2 ∧
      GoodOpt oracle (sideProbe oracle ti inRange left right lg fb s).2 lg ∧
      BadOpt oracle (sideProbe oracle ti inRange left right lg fb s).2 fb) ∧
      (∀ res, (sideProbe oracle ti inRange left right lg fb s).1 = some res →
        res.found = true ∧ ProbedInv oracle res.s ∧
          GoodOpt oracle res.s res.lastGood ∧ BadOpt oracle res.s res.firstBad) := by
  unfold sideProbe
  split
  · rcases hr : oracle ti with _ | b
    · refine ⟨⟨probedInv_testVersion oracle s ti hP,
        goodOpt_testVersion oracle s ti lg hG, badOpt_testVersion oracle s ti fb hB⟩, ?_⟩
      intro res hres
      simp at hres
    · have hsome : (oracle ti).isSome := by rw [hr]; rfl
      have hmem := self_mem_tested_testVersion oracle s ti hsome
      rcases b with _ | _
      · refine ⟨⟨probedInv_testVersion oracle s ti hP,
          goodOpt_testVersion oracle s ti lg hG, badOpt_testVersion oracle s ti fb hB⟩, ?_⟩
        intro res hres
        simp only [Option.some.injEq] at hres
        subst hres
        refine ⟨rfl, probedInv_testVersion oracle s ti hP,
          goodOpt_testVersion oracle s ti lg hG, ?_⟩
        intro b hb
        simp only [Option.some.injEq] at hb
        subst hb
        exact ⟨hmem, hr⟩
      · refine ⟨⟨probedInv_testVersion oracle s ti hP,
          goodOpt_testVersion oracle s ti lg hG, badOpt_testVersion oracle s ti fb hB⟩, ?_⟩
        intro res hres
        simp only [Option.some.injEq] at hres
        subst hres
        refine ⟨rfl, probedInv_testVersion oracle s ti hP, ?_,
          badOpt_testVersion oracle s ti fb hB⟩
        intro g hg
        simp only [Option.some.injEq] at hg
        subst hg
        exact ⟨hmem, hr⟩
  · refine ⟨⟨hP, hG, hB⟩, ?_⟩
    intro res hres
    simp at hres

theorem altScan_spec (oracle : Nat → Option Bool) (mid : Nat) :
    ∀ (rem offset left right : Nat) (lg fb : Option Nat) (s : BState),
      ProbedInv oracle s → GoodOpt oracle s lg → BadOpt oracle s fb →
      (ProbedInv oracle (altScan oracle mid rem offset left right lg fb s).s ∧
        GoodOpt oracle (altScan oracle mid rem offset left right lg fb s).s
          (altScan oracle mid rem offset left right lg fb s).lastGood ∧
        BadOpt oracle (altScan oracle mid rem offset left right lg fb s).s
          (altScan oracle mid rem offset left right lg fb s).firstBad) ∧
      ((altScan oracle mid rem offset left right lg fb s).found = false →
        (altScan oracle mid rem offset left right lg fb s).left = left ∧
        (altScan oracle mid rem offset left right lg fb s).right = right ∧
        (altScan oracle mid rem offset left right lg fb s).lastGood = lg ∧
        (altScan oracle mid rem offset left right lg fb s).firstBad = fb) := by
  intro rem
  induction rem with
  | zero =>
    intro offset left right lg fb s hP hG hB
    exact ⟨⟨hP, hG, hB⟩, fun _ => ⟨rfl, rfl, rfl, rfl⟩⟩
  | succ rem ih =>
    intro offset left right lg fb s hP hG hB
    rw [altScan]
    rcases hsp : sideProbe oracle (mid + offset) (decide (mid + offset ≤ right))
        left right lg fb s with ⟨os, s1⟩
    have h1 := sideProbe_spec oracle (mid + offset) (decide (mid + offset ≤ right))
      left right lg fb s hP hG hB
    rw [hsp] at h1
    rcases os with _ | res
    · simp only
      rcases hsp2 : sideProbe oracle (mid - offset)
          (decide (offset ≤ mid) && decide (left ≤ mid - offset)) left right lg fb s1
        with ⟨os2, s2⟩
      have h2 := sideProbe_spec oracle (mid - offset)
        (decide (offset ≤ mid) && decide (left ≤ mid - offset)) left right lg fb s1
        h1.1.1 h1.1.2.1 h1.1.2.2
      rw [hsp2] at h2
      rcases os2 with _ | res2
      · simp only
        exact ih (offset + 1) left right lg fb s2 h2.1.1 h2.1.2.1 h2.1.2.2
      · simp only
        obtain ⟨hfound, hres⟩ := h2.2 res2 rfl
        refine ⟨hres, ?_⟩
        intro hfalse
        rw [hfound] at hfalse
        simp at hfalse
    · simp only
      obtain ⟨hfound, hres⟩ := h1.2 res rfl
      refine ⟨hres, ?_⟩
      intro hfalse
      rw [hfound] at hfalse
      simp at hfalse

theorem sideProbe_some_found (oracle : Nat → Option Bool) (ti : Nat) (inRange : Bool)
    (left right : Nat) (lg fb : Option Nat) (s : BState) (res : ScanResult) (s' : BState)
    (h : sideProbe oracle ti inRange left right lg fb s = (some res, s')) :
    res.found = true := by
  unfold sideProbe at h
  split at h
  · rcases hr : oracle ti with _ | b
    · rw [hr] at h
      simp at h
    · rcases b with _ | _ <;> rw [hr] at h <;>
        simp only [Prod.mk.injEq, Option.some.injEq] at h <;>
        rw [← h.1]
  · simp at h

theorem altScan_found_false (oracle : Nat → Option Bool) (mid : Nat) :
    ∀ (rem offset left right : Nat) (lg fb : Option Nat) (s : BState),
      (altScan oracle mid rem offset left right lg fb s).found = false →
      (altScan oracle mid rem offset left right lg fb s).left = left ∧
        (altScan oracle mid rem offset left right lg fb s).right = right ∧
        (altScan oracle mid rem offset left right lg fb s).lastGood = lg ∧
        (altScan oracle mid rem offset left right lg fb s).firstBad = fb := by
  intro rem
  induction rem with
  | zero =>
    intro offset left right lg fb s _
    exact ⟨rfl, rfl, rfl, rfl⟩
  | succ rem ih =>
    intro offset left right lg fb s hfound
    rw [altScan] at hfound ⊢
    rcases hsp : sideProbe oracle (mid + offset) (decide (mid + offset ≤ right))
        left right lg fb s with ⟨os, s1⟩
    rw [hsp] at hfound
    rcases os with _ | res
    · simp only at hfound ⊢
      rcases hsp2 : sideProbe oracle (mid - offset)
          (decide (offset ≤ mid) && decide (left ≤ mid - offset)) left right lg fb s1
        with ⟨os2, s2⟩
      rw [hsp2] at hfound
      rcases os2 with _ | res2
      · simp only at hfound ⊢
        exact ih (offset + 1) left right lg fb s2 hfound
      · simp only at hfound
        have := sideProbe_some_found oracle (mid - offset)
          (decide (offset ≤ mid) && decide (left ≤ mid - offset)) left right lg fb s1 res2 s2
          hsp2
        rw [this] at hfound
        simp at hfound
    · simp only at hfound
      have := sideProbe_some_found oracle (mid + offset) (decide (mid + offset ≤ right))
        left right lg fb s res s1 hsp
      rw [this] at hfound
      simp at hfound

theorem stepMid_inv (oracle : Nat → Option Bool) (st : SearchState)
    (h : StInv oracle st) : StInv oracle (stepMid oracle st).2 := by
  obtain ⟨hP, hG, hB⟩ := h
  simp only [stepMid]
  split
  · -- mid already in details: use the cached outcome
    rename_i hc
    rcases hr : oracle ((st.left + st.right) / 2) with _ | b
    · simp only
      have hscan := altScan_spec oracle ((st.left + st.right) / 2)
        (max ((st.left + st.right) / 2 - st.left) (st.right - (st.left + st.right) / 2)) 1
        st.left st.right st.lastGood st.firstBad st.s hP hG hB
      exact ⟨hscan.1.1, hscan.1.2.1, hscan.1.2.2⟩
    · have hmem : (st.left + st.right) / 2 ∈ st.s.tested := by
        refine hP _ (by simpa using hc) ?_
        rw [hr]
        rfl
      rcases b with _ | _
      · simp only
        refine ⟨hP, hG, ?_⟩
        intro x hx
        simp only [Option.some.injEq] at hx
        subst hx
        exact ⟨hmem, hr⟩
      · simp only
        refine ⟨hP, ?_, hB⟩
        intro x hx
        simp only [Option.some.injEq] at hx
        subst hx
        exact ⟨hmem, hr⟩
  · -- probe the mid now
    have hP1 := probedInv_testVersion oracle st.s ((st.left + st.right) / 2) hP
    have hG1 := goodOpt_testVersion oracle st.s ((st.left + st.right) / 2) st.lastGood hG
    have hB1 := badOpt_testVersion oracle st.s ((st.left + st.right) / 2) st.firstBad hB
    rcases hts : testVersion oracle st.s ((st.left + st.right) / 2) with ⟨r, s1⟩
    rw [hts] at hP1 hG1 hB1
    have hr : r = oracle ((st.left + st.right) / 2) := by
      rw [← testVersion_fst oracle st.s ((st.left + st.right) / 2), hts]
    rcases r with _ | b
    · simp only
      have hscan := altScan_spec oracle ((st.left + st.right) / 2)
        (max ((st.left + st.right) / 2 - st.left) (st.right - (st.left + st.right) / 2)) 1
        st.left st.right st.lastGood st.firstBad s1 hP1 hG1 hB1
      exact ⟨hscan.1.1, hscan.1.2.1, hscan.1.2.2⟩
    · have hmem : (st.left + st.right) / 2 ∈ s1.tested := by
        have := self_mem_tested_testVersion oracle st.s ((st.left + st.right) / 2)
          (by rw [← hr]; rfl)
        rw [hts] at this
        exact this
      rcases b with _ | _
      · simp only
        refine ⟨hP1, hG1, ?_⟩
        intro x hx
        simp only [Option.some.injEq] at hx
        subst hx
        exact ⟨hmem, hr.symm⟩
      · simp only
        refine ⟨hP1, ?_, hB1⟩
        intro x hx
        simp only [Option.some.injEq] at hx
        subst hx
        exact ⟨hmem, hr.symm⟩

theorem searchLoop_inv (oracle : Nat → Option Bool) :
    ∀ (fuel : Nat) (st : SearchState), StInv oracle st →
      StInv oracle (searchLoop oracle fuel st) := by
  intro fuel
  induction fuel with
  | zero => intro st h; exact h
  | succ fuel ih =>
    intro st h
    rw [searchLoop]
    split
    · rcases hsm : stepMid oracle st with ⟨cont, st'⟩
      have h' := stepMid_inv oracle st h
      rw [hsm] at h'
      rcases cont with _ | _
      · exact h'
      · exact ih st' h'
    · exact h

theorem searchAssemble_spec (oracle : Nat → Option Bool) (fuel : Nat) (st0 : SearchState)
    (h0 : StInv oracle st0) (l b : Nat)
    (hl : (match (searchLoop oracle fuel st0).lastGood, (searchLoop oracle fuel st0).firstBad with
           | some lg, none => some lg
           | some lg, some fb => if lg < fb then some lg else none
           | none, _ => (none : Option Nat)) = some l)
    (hb : (searchLoop oracle fuel st0).firstBad = some b) :
    l < b ∧ l ∈ (searchLoop oracle fuel st0).s.tested ∧
      b ∈ (searchLoop oracle fuel st0).s.tested ∧
      oracle l = some true ∧ oracle b = some false := by
  obtain ⟨hP, hG, hB⟩ := searchLoop_inv oracle fuel st0 h0
  rcases hlg : (searchLoop oracle fuel st0).lastGood with _ | lg
  · rw [hlg] at hl
    simp at hl
  · rcases hfb : (searchLoop oracle fuel st0).firstBad with _ | fb
    · rw [hfb] at hb
      simp at hb
    · rw [hlg, hfb] at hl
      simp only at hl
      rw [hfb] at hb
      simp only [Option.some.injEq] at hb
      subst hb
      by_cases hlt : lg < fb
      · rw [if_pos hlt] at hl
        simp only [Option.some.injEq] at hl
        subst hl
        obtain ⟨hmemL, hvalL⟩ := hG lg hlg
        obtain ⟨hmemB, hvalB⟩ := hB fb hfb
        exact ⟨hlt, hmemL, hmemB, hvalL, hvalB⟩
      · rw [if_neg hlt] at hl
        simp at hl

theorem bisectPhase_spec (oracle : Nat → Option Bool) (fuel : Nat) (p f : Nat) (s : BState)
    (hP : ProbedInv oracle s) (hpt : p ∈ s.tested) (hpv : oracle p = some true)
    (hft : f ∈ s.tested) (hfv : oracle f = some false) (l b : Nat)
    (hl : (bisectPhase oracle fuel p f s).lastGood = some l)
    (hb : (bisectPhase oracle fuel p f s).firstBad = some b) :
    l < b ∧ l ∈ (bisectPhase oracle fuel p f s).tested ∧
      b ∈ (bisectPhase oracle fuel p f s).tested ∧
      oracle l = some true ∧ oracle b = some false := by
  have hne : p ≠ f := by
    intro he
    rw [he, hfv] at hpv
    simp at hpv
  have hG0 : GoodOpt oracle s (some p) := by
    intro g hg
    simp only [Option.some.injEq] at hg
    subst hg
    exact ⟨hpt, hpv⟩
  have hB0 : BadOpt oracle s (some f) := by
    intro x hx
    simp only [Option.some.injEq] at hx
    subst hx
    exact ⟨hft, hfv⟩
  rcases Nat.lt_or_ge p f with hpf | hge
  · have dpf : decide (p < f) = true := by simp [hpf]
    have e1 : decide (f < p) = false := by
      have h2 : ¬ f < p := by omega
      simp [h2]
    have emin : min p f = p := Nat.min_eq_left (Nat.le_of_lt hpf)
    have emax : max p f = f := Nat.max_eq_right (Nat.le_of_lt hpf)
    simp only [bisectPhase, dpf, e1, Bool.not_true, Bool.false_eq_true, if_false,
      emin, emax] at hl hb ⊢
    exact searchAssemble_spec oracle fuel
      { left := p, right := f, lastGood := some p, firstBad := some f, s := s }
      ⟨hP, hG0, hB0⟩ l b hl hb
  · have hfp : f < p := by omega
    have dpf : decide (p < f) = false := by
      have h3 : ¬ p < f := by omega
      simp [h3]
    have e1 : decide (f < p) = true := by simp [hfp]
    have emin : min p f = f := Nat.min_eq_right (Nat.le_of_lt hfp)
    have emax : max p f = p := Nat.max_eq_left (Nat.le_of_lt hfp)
    simp only [bisectPhase, dpf, e1, Bool.not_false, Bool.false_eq_true, if_false,
      if_true, emin, emax] at hl hb ⊢
    exact searchAssemble_spec oracle fuel
      { left := f, right := p, lastGood := some p, firstBad := some f, s := s }
      ⟨hP, hG0, hB0⟩ l b hl hb

/-- C1 (amended): in every `VersionBisectionResult` returned by
`VersionBisector.bisect` with verdict `"bisected"` in which both
`last_good_version` and `first_bad_version` are set: `last_good` strictly
precedes `first_bad` in the version list, both are members of
`tested_versions`, `last_good` resolved to `Passed` and `first_bad` resolved
to `Failed`; and when the oracle is monotone (once a version fails, no later
version passes), every tested version at or below `last_good` did not resolve
to `Failed` and every tested version at or above `first_bad` did not resolve
to `Passed` (tested versions carry genuine outcomes, so on those sides this
is exactly "resolved to Passed" / "resolved to Failed").  The accompanying
counterexample refutes both dropped conjuncts of the original claim: the
no-tested-version-strictly-between conjunct fails even for a monotone oracle
when skips exhaust the search range, and the unconditional per-side conjuncts
fail for a non-monotone oracle. -/
theorem c1_version_bisect_bisected_endpoints (oracle : Nat → Option Bool) (n fuel : Nat)
    (hv : (bisect oracle n fuel).verdict = "bisected") (l b : Nat)
    (hl : (bisect oracle n fuel).lastGood = some l)
    (hb : (bisect oracle n fuel).firstBad = some b) :
    l < b ∧ l ∈ (bisect oracle n fuel).tested ∧ b ∈ (bisect oracle n fuel).tested ∧
      oracle l = some true ∧ oracle b = some false ∧
      (MonoOracle oracle → ∀ a ∈ (bisect oracle n fuel).tested,
        (a ≤ l → oracle a ≠ some false) ∧ (b ≤ a → oracle a ≠ some true)) := by
  have core : l < b ∧ l ∈ (bisect oracle n fuel).tested ∧
      b ∈ (bisect oracle n fuel).tested ∧
      oracle l = some true ∧ oracle b = some false := by
    by_cases hn : n = 0
    · simp [bisect, hn] at hv
    · have hde := discoverEndpoints_inv oracle n
      rcases he : discoverEndpoints oracle n with ⟨passing, failing, s⟩
      rw [he] at hde
      rcases passing with _ | p
      · rcases failing with _ | f
        · simp [bisect, hn, he] at hv
        · simp [bisect, hn, he] at hv
      · rcases failing with _ | f
        · simp [bisect, hn, he] at hv
        · have hbisect : bisect oracle n fuel = bisectPhase oracle fuel p f s := by
            simp [bisect, hn, he]
          rw [hbisect] at hl hb ⊢
          obtain ⟨hP, hG, hB⟩ := hde
          obtain ⟨hpt, hpv⟩ := hG p rfl
          obtain ⟨hft, hfv⟩ := hB f rfl
          exact bisectPhase_spec oracle fuel p f s hP hpt hpv hft hfv l b hl hb
  obtain ⟨hlb, hlt, hbt, hlv, hbv⟩ := core
  refine ⟨hlb, hlt, hbt, hlv, hbv, ?_⟩
  intro hmono a _
  constructor
  · intro hal haf
    exact hmono a l hal haf hlv
  · intro hba hat
    exact hmono b a hba hbv hat

/-- Witness for the amended C1 at the concrete skip-heavy oracle. -/
theorem c1_version_bisect_bisected_endpoints_witness :
    (1 : Nat) < 5 ∧ 1 ∈ (bisect probeWithSkips 8 100).tested ∧
      5 ∈ (bisect probeWithSkips 8 100).tested ∧
      probeWithSkips 1 = some true ∧ probeWithSkips 5 = some false ∧
      (MonoOracle probeWithSkips → ∀ a ∈ (bisect probeWithSkips 8 100).tested,
        (a ≤ 1 → probeWithSkips a ≠ some false) ∧ (5 ≤ a → probeWithSkips a ≠ some true)) :=
  c1_version_bisect_bisected_endpoints probeWithSkips 8 100 (by decide) 1 5
    (by decide) (by decide)

/-- C1 counterexample, refuting exactly the conjuncts the amendment drops.
Run 1 (monotone oracle `probeWithSkips`: passes at 1 and 2, fails at 5, the
rest unavailable) returns verdict `"bisected"` with `last_good = 1`,
`first_bad = 5`, yet version 2 was genuinely tested (it passed) and lies
strictly between them - refuting "no tested version lies strictly between
last_good and first_bad" even for a monotone oracle.  Run 2 (non-monotone
oracle `probeNonMono`: fails at 0 and 5, passes elsewhere, all available)
returns verdict `"bisected"` with `last_good = 4`, `first_bad = 5`, yet
version 0 (which resolved to Failed) is tested at an index at or below
`last_good`, and version 7 (which resolved to Passed) is tested at an index
at or above `first_bad` - refuting both unconditional per-side conjuncts. -/
theorem c1_version_bisect_counterexample :
    ((bisect probeWithSkips 8 100).verdict = "bisected" ∧
      (bisect probeWithSkips 8 100).lastGood = some 1 ∧
      (bisect probeWithSkips 8 100).firstBad = some 5 ∧
      2 ∈ (bisect probeWithSkips 8 100).tested ∧
      (1 : Nat) < 2 ∧ (2 : Nat) < 5 ∧
      probeWithSkips 2 = some true ∧
      (∀ i < 8, ∀ j < 8, i < j → probeWithSkips i = some false →
        probeWithSkips j ≠ some true)) ∧
    ((bisect probeNonMono 8 100).verdict = "bisected" ∧
      (bisect probeNonMono 8 100).lastGood = some 4 ∧
      (bisect probeNonMono 8 100).firstBad = some 5 ∧
      0 ∈ (bisect probeNonMono 8 100).tested ∧
      probeNonMono 0 = some false ∧ (0 : Nat) ≤ 4 ∧
      7 ∈ (bisect probeNonMono 8 100).tested ∧
      probeNonMono 7 = some true ∧ (5 : Nat) ≤ 7) :=
  ⟨by decide, by decide⟩

/-- C2 (amended): a skipped midpoint never moves the binary-search
boundaries: if the probe at `mid = (left + right) / 2` resolves to a skip and
the alternate-mid scan finds no testable version either, the loop iteration
leaves `left`, `right`, `last_good_idx` and `first_bad_idx` exactly as they
were.  (Full skip-neutrality of the returned endpoints fails:
additional skips can exhaust the search range and freeze the boundaries
early, changing `first_bad` and `last_good`, as the accompanying
counterexample shows.) -/
theorem c2_skipped_mid_preserves_boundaries (oracle : Nat → Option Bool) (st : SearchState)
    (hskip : oracle ((st.left + st.right) / 2) = none)
    (hnone : (stepMid oracle st).1 = false) :
    (stepMid oracle st).2.left = st.left ∧ (stepMid oracle st).2.right = st.right ∧
      (stepMid oracle st).2.lastGood = st.lastGood ∧
      (stepMid oracle st).2.firstBad = st.firstBad := by
  by_cases hc : st.s.probed.contains ((st.left + st.right) / 2) = true
  · simp only [stepMid, hc, if_true, hskip] at hnone ⊢
    exact altScan_found_false oracle ((st.left + st.right) / 2) _ _ _ _ _ _ _ hnone
  · simp only [Bool.not_eq_true] at hc
    simp only [stepMid, hc, Bool.false_eq_true, if_false, testVersion, hskip] at hnone ⊢
    exact altScan_found_false oracle ((st.left + st.right) / 2) _ _ _ _ _ _ _ hnone

/-- Witness for the amended C2: with every compiler unavailable, the first
iteration over the range `[0, 2]` skips the midpoint, finds no alternate, and
leaves all four boundary trackers unchanged. -/
theorem c2_skipped_mid_preserves_boundaries_witness :
    (stepMid probeAllSkip sampleSearchState).2.left = sampleSearchState.left ∧
      (stepMid probeAllSkip sampleSearchState).2.right = sampleSearchState.right ∧
      (stepMid probeAllSkip sampleSearchState).2.lastGood = sampleSearchState.lastGood ∧
      (stepMid probeAllSkip sampleSearchState).2.firstBad = sampleSearchState.firstBad :=
  c2_skipped_mid_preserves_boundaries probeAllSkip sampleSearchState (by decide) (by decide)

/-- C2 counterexample: two oracles that agree on every version producing a
genuine outcome (`probeWithSkips` reveals the `probeTotal` ground truth at
indices 1, 2 and 5 and skips everywhere else) give different `first_bad` and
`last_good` results, refuting skip neutrality of the returned endpoints. -/
theorem c2_skip_neutrality_counterexample :
    (∀ i < 8, ∀ bv : Bool, probeWithSkips i = some bv → probeTotal i = some bv) ∧
      (bisect probeTotal 8 100).verdict = "bisected" ∧
      (bisect probeWithSkips 8 100).verdict = "bisected" ∧
      (bisect probeTotal 8 100).firstBad = some 3 ∧
      (bisect probeWithSkips 8 100).firstBad = some 5 ∧
      (bisect probeTotal 8 100).lastGood = some 2 ∧
      (bisect probeWithSkips 8 100).lastGood = some 1 := by
  decide

theorem pyStartsWith_diag (x : String) :
    pyStartsWith ("DIAGNOSTIC_ERROR: " ++ x) "DIAGNOSTIC_ERROR:" = true := by
  unfold pyStartsWith
  rw [String.data_append]
  refine List.isPrefixOf_iff_prefix.mpr ?_
  refine List.IsPrefix.trans ?_ (List.prefix_append _ _)
  exact List.isPrefixOf_iff_prefix.mp (by decide)

theorem diag_append_ne_empty (x : String) : ("DIAGNOSTIC_ERROR: " ++ x) ≠ "" := by
  intro h
  have hdata := congrArg String.data h
  rw [String.data_append] at hdata
  have hnil : ("" : String).data = [] := rfl
  rw [hnil] at hdata
  have h2 := List.append_eq_nil.mp hdata
  exact absurd h2.1 (by decide)

theorem classifyProbe_not_both (c : CompileOutcome) (judge : Bool) :
    ¬ ((classifyProbe c judge).addedToTested = true ∧
        (classifyProbe c judge).skipped = true) := by
  unfold classifyProbe
  split
  · simp
  · split
    · split <;> simp
    · simp

/-- C4 (amended): for every probe made by the version bisector through a
found compiler whose compilation exits nonzero: if the stderr matches an ICE
signature and does not itself begin with the literal `DIAGNOSTIC_ERROR:`
marker the probe is recorded as a failed test (`passes = False`) and counted
in `tested_versions`; if the stderr matches no ICE signature the probe is
recorded as a skip (`passes = None`) that is not counted; and no probe is
ever recorded as both an attempt and a skip.  (The original claim, without
the marker proviso, fails on the code: an ICE whose stderr happens to start
with the in-band `DIAGNOSTIC_ERROR:` marker is misclassified as a diagnostic
skip, as the accompanying counterexample shows.) -/
theorem c4_probe_classification (env : CompileEnv) (judge : Bool)
    (hfound : env.compilerFound = true) (hret : env.returncode ≠ 0) :
    ((isICE env.stderr = true → pyStartsWith env.stderr "DIAGNOSTIC_ERROR:" = false →
        testVersionLocal env judge =
          { passes := some false, addedToTested := true, skipped := false }) ∧
      (isICE env.stderr = false →
        testVersionLocal env judge =
          { passes := none, addedToTested := false, skipped := true })) ∧
      (∀ env' : CompileEnv, ∀ judge' : Bool,
        ¬ ((testVersionLocal env' judge').addedToTested = true ∧
            (testVersionLocal env' judge').skipped = true)) := by
  refine ⟨⟨?_, ?_⟩, ?_⟩
  · intro hice hpre
    unfold testVersionLocal compileLocal
    simp only [hfound, Bool.not_true, Bool.false_eq_true, if_false, bne_iff_ne, ne_eq, hret,
      not_false_eq_true, if_true, hice]
    unfold classifyProbe
    simp [hpre]
  · intro hice
    unfold testVersionLocal compileLocal
    simp only [hfound, Bool.not_true, Bool.false_eq_true, if_false, bne_iff_ne, ne_eq, hret,
      not_false_eq_true, if_true, hice]
    unfold classifyProbe
    simp [pyStartsWith_diag, diag_append_ne_empty]
  · intro env' judge'
    exact classifyProbe_not_both (compileLocal env') judge'

/-- Witness for the amended C4 at a concrete ICE environment. -/
theorem c4_probe_classification_witness :
    ((isICE sampleICEEnv.stderr = true →
        pyStartsWith sampleICEEnv.stderr "DIAGNOSTIC_ERROR:" = false →
        testVersionLocal sampleICEEnv true =
          { passes := some false, addedToTested := true, skipped := false }) ∧
      (isICE sampleICEEnv.stderr = false →
        testVersionLocal sampleICEEnv true =
          { passes := none, addedToTested := false, skipped := true })) ∧
      (∀ env' : CompileEnv, ∀ judge' : Bool,
        ¬ ((testVersionLocal env' judge').addedToTested = true ∧
            (testVersionLocal env' judge').skipped = true)) :=
  c4_probe_classification sampleICEEnv true (by decide) (by decide)

/-- C4 counterexample: a nonzero-exit compilation whose stderr contains the
ICE marker `Stack dump:` but begins with the literal `DIAGNOSTIC_ERROR:`
prefix is recorded as a skip (`passes = None`, not counted), not as a failed
test - refuting the claim that every ICE-matching nonzero-exit compilation is
recorded as a Failed attempt. -/
theorem c4_ice_classification_counterexample :
    (1 : Int) ≠ 0 ∧
      isICE "DIAGNOSTIC_ERROR: Stack dump:" = true ∧
      (testVersionLocal diagMaskedICEEnv true).passes = none ∧
      (testVersionLocal diagMaskedICEEnv true).addedToTested = false ∧
      (testVersionLocal diagMaskedICEEnv true).skipped = true := by
  decide

end VersionBisector

namespace UBDetector

/-- C5: for every fixed assignment of the three UB signals, the classifier's
confidence equals the clamp to `[0,1]` of `0.5 + (0.3 if the sanitizer signal
is clean else -0.4) + (0.2 if optimization-sensitive) + (0.25 for a
cross-compiler crash asymmetry, else 0.15 for a cross-compiler output
difference)` - a pure function of the signal values, independent of
measurement order - and the verdict thresholds are: `compiler_bug` iff
confidence `≥ 0.6`, `user_ub` iff confidence `≤ 0.3`, `inconclusive`
otherwise. -/
theorem c5_confidence_formula (ubsanClean optSens : Bool) (cross : CrossSignal) (c : ℚ) :
    computeConfidence ubsanClean optSens cross.differs cross.isCrash
        = specConfidence ubsanClean optSens cross ∧
      (verdictFromConfidence c = "compiler_bug" ↔ c ≥ 6/10) ∧
      (verdictFromConfidence c = "user_ub" ↔ c ≤ 3/10) ∧
      (verdictFromConfidence c = "inconclusive" ↔ (3/10 < c ∧ c < 6/10)) := by
  refine ⟨?_, ?_, ?_, ?_⟩
  · cases ubsanClean <;> cases optSens <;> cases cross <;>
      norm_num [computeConfidence, specConfidence, CrossSignal.differs, CrossSignal.isCrash]
  · unfold verdictFromConfidence
    split
    · rename_i h
      simpa using h
    · rename_i h
      split
      · rename_i h2
        constructor
        · intro hstr
          exact absurd hstr (by decide)
        · intro hc
          exact absurd hc h
      · rename_i h2
        constructor
        · intro hstr
          exact absurd hstr (by decide)
        · intro hc
          exact absurd hc h
  · unfold verdictFromConfidence
    split
    · rename_i h
      constructor
      · intro hstr
        exact absurd hstr (by decide)
      · intro hc
        have : (3 : ℚ)/10 < 6/10 := by norm_num
        linarith
    · split
      · rename_i h h2
        simpa using h2
      · rename_i h h2
        constructor
        · intro hstr
          exact absurd hstr (by decide)
        · intro hc
          exact absurd hc h2
  · unfold verdictFromConfidence
    split
    · rename_i h
      constructor
      · intro hstr
        exact absurd hstr (by decide)
      · intro hc
        linarith [hc.2]
    · split
      · rename_i h h2
        constructor
        · intro hstr
          exact absurd hstr (by decide)
        · intro hc
          linarith [hc.1]
      · rename_i h h2
        constructor
        · intro _
          constructor
          · exact lt_of_not_ge (fun hle => h2 hle)
          · exact lt_of_not_ge h
        · intro _
          rfl

end UBDetector

namespace Orchestrator

/-- C6 (amended): the full pipeline stops after the UB stage only on verdict
`user_ub` (no bisection findings in the diagnosis); for every other UB
verdict - including `inconclusive` - the version bisector is invoked, and the
pass bisector is invoked iff version bisection reports a (truthy)
`first_bad_version`.  (The original claim - that an `inconclusive` UB verdict
stops the pipeline - fails on the code, as the accompanying counterexample
shows.) -/
theorem c6_pipeline_short_circuit (ub : UBCmdResult) (versionRun : VersionCmdResult)
    (passRun : PassCmdResult) :
    (ub.verdict = "user_ub" →
        fullPipelineCmd ub versionRun passRun =
          { ubDetection := ub, versionBisection := none, passBisection := none }) ∧
      (ub.verdict ≠ "user_ub" →
        (fullPipelineCmd ub versionRun passRun).versionBisection = some versionRun ∧
          ((fullPipelineCmd ub versionRun passRun).passBisection = some passRun ↔
            pyTruthy versionRun.firstBad = true)) := by
  constructor
  · intro h
    simp [fullPipelineCmd, h]
  · intro h
    rcases ht : pyTruthy versionRun.firstBad with _ | _
    · simp [fullPipelineCmd, h, ht]
    · simp [fullPipelineCmd, h, ht]

/-- Witness for the amended C6: an `inconclusive` UB verdict still triggers
version bisection, and pass bisection runs because a first bad version was
found. -/
theorem c6_pipeline_short_circuit_witness :
    (fullPipelineCmd { verdict := "inconclusive", confidence := 1/2 }
        { verdict := "bisected", firstBad := some "18.0.0", lastGood := some "17.0.6" }
        { verdict := "bisected", culpritPass := some "instcombine" }).versionBisection =
      some { verdict := "bisected", firstBad := some "18.0.0", lastGood := some "17.0.6" } ∧
      ((fullPipelineCmd { verdict := "inconclusive", confidence := 1/2 }
        { verdict := "bisected", firstBad := some "18.0.0", lastGood := some "17.0.6" }
        { verdict := "bisected", culpritPass := some "instcombine" }).passBisection =
          some { verdict := "bisected", culpritPass := some "instcombine" } ↔
        pyTruthy (some "18.0.0") = true) :=
  (c6_pipeline_short_circuit { verdict := "inconclusive", confidence := 1/2 }
    { verdict := "bisected", firstBad := some "18.0.0", lastGood := some "17.0.6" }
    { verdict := "bisected", culpritPass := some "instcombine" }).2 (by decide)

/-- C6 counterexample: with an `inconclusive` UB verdict, `full_pipeline_cmd`
does not stop - the diagnosis contains a version-bisection finding and (here)
a pass-bisection finding, refuting the claim that the orchestrator halts with
no bisection findings on `inconclusive`. -/
theorem c6_inconclusive_counterexample :
    (fullPipelineCmd { verdict := "inconclusive", confidence := 1/2 }
        { verdict := "bisected", firstBad := some "18.0.0", lastGood := some "17.0.6" }
        { verdict := "bisected", culpritPass := some "instcombine" }).versionBisection ≠
      none ∧
      (fullPipelineCmd { verdict := "inconclusive", confidence := 1/2 }
        { verdict := "bisected", firstBad := some "18.0.0", lastGood := some "17.0.6" }
        { verdict := "bisected", culpritPass := some "instcombine" }).passBisection ≠
      none := by
  decide

end Orchestrator

namespace UBDetector

/-- C7 (amended): if the sanitizer compile step fails (nonzero exit while
building with `-fsanitize=undefined`), `_check_ubsan` records
`compile_failed` in its details and returns `True`: the sanitizer signal is
recorded as clean (the code comments this as "Compilation failure, assume not
UB"), not as unknown.  (The original claim - that no run records a clean
sanitizer signal originating from a failed sanitizer compilation - fails on
the code, as the accompanying counterexample shows.) -/
theorem c7_ubsan_compile_failure_clean (ret : Int) (stderr : String) (h : ret ≠ 0) :
    checkUbsan true ret stderr = { clean := true, compileFailed := true } := by
  unfold checkUbsan
  simp [h]

/-- Witness for the amended C7 at a concrete failing compilation. -/
theorem c7_ubsan_compile_failure_clean_witness :
    checkUbsan true 1 "clang: error: unsupported option" =
      { clean := true, compileFailed := true } :=
  c7_ubsan_compile_failure_clean 1 "clang: error: unsupported option" (by decide)

/-- C7 counterexample: a run whose sanitizer compilation exits with code 1
records `ubsan_clean = True`, refuting the claim that no clean sanitizer
signal originates from a failed sanitizer compilation. -/
theorem c7_ubsan_compile_failure_counterexample :
    (1 : Int) ≠ 0 ∧
      (checkUbsan true 1 "clang: error: unsupported option").compileFailed = true ∧
      (checkUbsan true 1 "clang: error: unsupported option").clean = true := by
  decide

end UBDetector

namespace Collector

/-- C8: submitting an anomaly report whose dedup key equals that of an
already-stored row increments exactly that row's frequency by 1 and updates
its `last_seen` timestamp without inserting a new row (the row count is
unchanged); consequently submitting the same anomaly twice into a fresh
database yields a single row with frequency 2, and the `unique_bugs` count of
the stats view is 1 after the first submission and still 1 after the
second. -/
theorem c8_duplicate_insert_updates (db : DB) (r : Report) (now : String) (existing : Row)
    (hfind : db.rows.find? (fun row => row.dedupeHash == computeDedupeHash r) = some existing)
    (r' : Report) (t₁ t₂ : String) :
    (insertReport db r now = some
        ({ db with rows := db.rows.map (fun q =>
            if q.id = existing.id then
              { q with frequency := existing.frequency + 1, lastSeen := now }
            else q) }, existing.id) ∧
      (db.rows.map (fun q =>
          if q.id = existing.id then
            { q with frequency := existing.frequency + 1, lastSeen := now }
          else q)).length = db.rows.length) ∧
      (insertAll emptyDB [(r', t₁), (r', t₂)] = { rows := [dupRow r' t₁ t₂], nextId := 1 } ∧
        getStats (insertAll emptyDB [(r', t₁), (r', t₂)]) =
          { totalReports := 1, uniqueBugs := 1 } ∧
        getStats (insertAll emptyDB [(r', t₁)]) =
          { totalReports := 1, uniqueBugs := 1 }) := by
  refine ⟨⟨?_, ?_⟩, ?_, ?_, ?_⟩
  · simp only [insertReport, hfind]
  · exact List.length_map _ _
  · simp [insertAll, insertReport, emptyDB, getStats, dupRow, List.dedup]
  · simp [insertAll, insertReport, emptyDB, getStats, dupRow, List.dedup]
  · simp [insertAll, insertReport, emptyDB, getStats, List.dedup]

/-- Witness for C8 at a concrete database and report. -/
theorem c8_duplicate_insert_updates_witness :
    (insertReport sampleDB sampleReport "t1" = some
        ({ sampleDB with rows := sampleDB.rows.map (fun q =>
            if q.id = sampleRow.id then
              { q with frequency := sampleRow.frequency + 1, lastSeen := "t1" }
            else q) }, sampleRow.id) ∧
      (sampleDB.rows.map (fun q =>
          if q.id = sampleRow.id then
            { q with frequency := sampleRow.frequency + 1, lastSeen := "t1" }
          else q)).length = sampleDB.rows.length) ∧
      (insertAll emptyDB [(sampleReport, "t1"), (sampleReport, "t2")] =
          { rows := [dupRow sampleReport "t1" "t2"], nextId := 1 } ∧
        getStats (insertAll emptyDB [(sampleReport, "t1"), (sampleReport, "t2")]) =
          { totalReports := 1, uniqueBugs := 1 } ∧
        getStats (insertAll emptyDB [(sampleReport, "t1")]) =
          { totalReports := 1, uniqueBugs := 1 }) :=
  c8_duplicate_insert_updates sampleDB sampleReport "t1" sampleRow
    (by simp [sampleDB, sampleRow, List.find?_cons]) sampleReport "t1" "t2"

/-- C10 (implicit): after any sequence of `insert_report` calls on a freshly
created database, at most one row exists per dedupe hash (the stored hashes
are pairwise distinct); consequently `get_stats` returns `total_reports`
equal to `unique_bugs`. -/
theorem c10_dedupe_rows_unique (submissions : List (Report × String)) :
    HashesNodup (insertAll emptyDB submissions) ∧
      (getStats (insertAll emptyDB submissions)).totalReports =
        (getStats (insertAll emptyDB submissions)).uniqueBugs := by
  have h : HashesNodup (insertAll emptyDB submissions) := by
    refine insertAll_hashesNodup submissions emptyDB ?_
    simp [HashesNodup, emptyDB]
  refine ⟨h, ?_⟩
  show (insertAll emptyDB submissions).rows.length =
    (((insertAll emptyDB submissions).rows.map (fun row => row.dedupeHash)).dedup).length
  rw [List.dedup_eq_self.mpr h, List.length_map]

end Collector
